import Mathlib

/-!
Shallow embedding of the `2anythings` PDF-converter repository, together with
proofs checking its natural-language specification.  Each definition below is
translated from one Python function of the repository (named in its doc
comment); theorems at the end of the file settle the spec claims.
-/

set_option linter.unusedVariables false
set_option maxRecDepth 8000

/-! ## Converter factory (`src/converters/converter_factory.py`) -/

/-- Metadata of a registered converter (`converter_interface.ConverterMetadata`):
the fields used by format lookup, plus `priority` (larger = preferred, default 0). -/
structure ConverterMetadata where
  supported_input_formats : List String
  supported_output_formats : List String
  priority : ℤ
deriving DecidableEq, Repr

/-- The registry `ConverterFactory._metadata`: a Python `dict` in insertion
order with unique keys, modelled as an association list `(name, metadata)`. -/
abbrev ConverterRegistry := List (String × ConverterMetadata)

/-- The membership test of `get_converters_for_format`:
`input_format.lower() in [fmt.lower() for fmt in metadata.supported_input_formats]`
and likewise for the output format. -/
def formatMatches (m : ConverterMetadata) (input_format output_format : String) : Bool :=
  (m.supported_input_formats.map String.toLower).contains input_format.toLower &&
  (m.supported_output_formats.map String.toLower).contains output_format.toLower

/-- The `suitable_converters` list built by `get_converters_for_format` before
sorting: `(name, priority)` pairs of matching converters, in registry
(insertion) order. -/
def suitableConverters (reg : ConverterRegistry) (input_format output_format : String) :
    List (String × ℤ) :=
  (reg.filter (fun nm => formatMatches nm.2 input_format output_format)).map
    (fun nm => (nm.1, nm.2.priority))

/-- `suitable_converters.sort(key=lambda x: x[1], reverse=True)`: Python's sort
is stable, and with `reverse=True` it orders by descending key while keeping
equal-key elements in their original order.  `List.insertionSort` with the
total preorder `b.2 ≤ a.2` is exactly such a stable descending sort. -/
def pySortByPriorityDesc (l : List (String × ℤ)) : List (String × ℤ) :=
  List.insertionSort (fun a b => b.2 ≤ a.2) l

/-- `ConverterFactory.get_converters_for_format`, returning the sorted
`(name, priority)` pairs (the source keeps the pairs until the final
`[name for name, _ in suitable_converters]`). -/
def getConvertersForFormatPairs (reg : ConverterRegistry)
    (input_format output_format : String) : List (String × ℤ) :=
  pySortByPriorityDesc (suitableConverters reg input_format output_format)

/-- `ConverterFactory.get_converters_for_format`: the converter names, sorted. -/
def getConvertersForFormat (reg : ConverterRegistry)
    (input_format output_format : String) : List String :=
  (getConvertersForFormatPairs reg input_format output_format).map Prod.fst

/-- The two-argument form of `ConverterFactory.get_converter`: look up the
matching converters and instantiate the first one (`converters[0]`), or return
`None` when the list is empty.  The instance is identified by its name. -/
def getConverterByFormats (reg : ConverterRegistry)
    (input_format output_format : String) : Option String :=
  match getConvertersForFormat reg input_format output_format with
  | [] => none
  | n :: _ => some n

/-! ## Direct PDF→PPT converter (`src/converters/pdf_to_ppt_converter.py`) -/

/-- `PDFToPPTConverter._add_text_content`: the caption text placed in the
bottom textbox for a page whose extracted text (after `.strip()`) is
`text`; `None` when no textbox is added.  The source sets
`text_frame.text = text[:200] + "..." if len(text) > 200 else text`. -/
def addTextContent (pageText : String) : Option String :=
  let text := pageText.trim
  if text = "" then none
  else some (if text.length > 200 then text.take 200 ++ "..." else text)

/-- The per-page caption behaviour of `PDFToPPTConverter.convert`:
`include_text = kwargs.get('include_text', True)` and, when it is truthy and
the page image was added, `_add_text_content` runs. -/
def convertPageCaption (includeTextOpt : Option Bool) (pageText : String) : Option String :=
  let includeText := includeTextOpt.getD true
  if includeText then addTextContent pageText else none

/-- `PDFToPPTConverter.get_default_options()['include_text']` (the source
returns `False` with the comment 默认不包含文本, i.e. "no text by default"). -/
def pdfToPptDefaultIncludeText : Bool := false

/-! ## PDF text remover (`src/converters/pdf_text_remover.py`) -/

/-- Word characters of the regular-expression class `\w` (ASCII range, which
covers the inputs considered): letters, digits and underscore. -/
def isWordChar (c : Char) : Bool :=
  c.isAlphanum || c = '_'

/-- Whether an optional character counts as a word character; positions outside
the string count as non-word. -/
def isWordOpt : Option Char → Bool
  | none => false
  | some c => isWordChar c

/-- The `\b` assertion of Python `re` between a left and a right character
(either may be absent at the ends of the string): it holds where exactly one
side is a word character. -/
def wordBoundary (left right : Option Char) : Bool :=
  isWordOpt left != isWordOpt right

/-- Whether the literal pattern `\b target \b` matches at the start of `t`,
with `prev` the character just before this position. -/
def wholeWordAt (g t : List Char) (prev : Option Char) : Bool :=
  g.isPrefixOf t &&
  wordBoundary prev t.head? &&
  wordBoundary (if g.isEmpty then prev else g.getLast?) (t.drop g.length).head?

/-- `re.search(r'\b' + re.escape(target) + r'\b', text)`: try the pattern at
every position of the text (`prev` is the character before the current
position). -/
def wholeWordFrom (g : List Char) (prev : Option Char) : List Char → Bool
  | [] => wholeWordAt g [] prev
  | c :: t => wholeWordAt g (c :: t) prev || wholeWordFrom g (some c) t

/-- Python substring containment `target in text` on character lists. -/
def containsSub (g : List Char) : List Char → Bool
  | [] => g.isEmpty
  | c :: t => g.isPrefixOf (c :: t) || containsSub g t

/-- `PDFTextRemover._text_matches(text, target, case_sensitive, whole_word)`:
lower-case both strings unless case sensitive, then either search the
`\b`-bounded literal pattern or test plain substring containment. -/
def textMatches (text target : String) (case_sensitive whole_word : Bool) : Bool :=
  let t := if case_sensitive then text else text.toLower
  let g := if case_sensitive then target else target.toLower
  if whole_word then wholeWordFrom g.data none t.data
  else containsSub g.data t.data

/-! ## Styled Word→PPT engine (`src/word_to_ppt_converter.py`) -/

/-- A content block produced by `WordToPPTConverter._extract_content_from_word`:
a heading with its level, or a plain paragraph. -/
inductive WBlock where
  | heading (level : ℕ) (text : String)
  | para (text : String)
deriving DecidableEq, Repr

/-- The text of a block (`block['text']`). -/
def WBlock.text : WBlock → String
  | .heading _ t => t
  | .para t => t

/-- Whether a block takes the "new slide" branch of `_create_ppt_slides`
(`block['type'] == 'heading' and block['level'] == 1`); every other block
(paragraphs and deeper headings) is accumulated as content. -/
def WBlock.isH1 : WBlock → Bool
  | .heading 1 _ => true
  | _ => false

/-- The loop state of `WordToPPTConverter._create_ppt_slides`: slides already
finalized (title and the content blocks' texts added to them), the title of the
slide currently being filled (`None` before any slide exists), the pending
`current_content` texts and the running `current_chars` count. -/
structure WState where
  slides : List (String × List String)
  cur : Option String
  content : List String
  chars : ℕ
deriving DecidableEq, Repr

/-- Finalize the current slide: the slide object already sits in the
presentation, and `_add_content_to_slide` fills it with `current_content`
(adding nothing when the content is empty).  Content accumulated while no
slide exists is dropped (`if current_slide is not None and current_content`). -/
def wFlush (st : WState) : List (String × List String) :=
  match st.cur with
  | some title => st.slides ++ [(title, st.content)]
  | none => st.slides

/-- One iteration of the block loop of `_create_ppt_slides`.  A level-1 heading
starts a new slide titled with the heading text; any other block is appended to
the current content unless `current_chars + block_chars > 800`
(`max_chars_per_slide`) or `len(current_content) >= 15` (`max_lines_per_slide`),
in which case a continuation slide titled `内容续页` is started first. -/
def wStep (st : WState) (b : WBlock) : WState :=
  if b.isH1 then
    { slides := wFlush st, cur := some b.text, content := [], chars := 0 }
  else
    let n := b.text.length
    if st.chars + n > 800 || st.content.length ≥ 15 then
      { slides := wFlush st, cur := some "内容续页", content := [b.text], chars := n }
    else
      { st with content := st.content ++ [b.text], chars := st.chars + n }

/-- `WordToPPTConverter._create_ppt_slides`: run the loop over all blocks,
finalize the last slide, and fall back to a single default title/subtitle
slide when no slide at all was created. -/
def createPptSlides (blocks : List WBlock) : List (String × List String) :=
  let st := blocks.foldl wStep { slides := [], cur := none, content := [], chars := 0 }
  let s := wFlush st
  if s.isEmpty then [("PDF转换内容", ["通过Word中转生成的PPT"])] else s

/-! ## Circuit breaker (`src/converters/retry_manager.py`) -/

/-- The `state` attribute of `CircuitBreaker`. -/
inductive CBStatus where
  | CLOSED
  | OPEN
  | HALF_OPEN
deriving DecidableEq, Repr

/-- The mutable state of a `CircuitBreaker`, together with its configuration
(`failure_threshold`, `recovery_timeout`).  Wall-clock times are rationals. -/
structure CircuitBreaker where
  failure_threshold : ℕ
  recovery_timeout : ℚ
  failure_count : ℕ
  last_failure_time : Option ℚ
  state : CBStatus
deriving DecidableEq, Repr

/-- A fresh breaker (`CircuitBreaker.__init__`). -/
def CircuitBreaker.init (threshold : ℕ) (timeout : ℚ) : CircuitBreaker :=
  { failure_threshold := threshold, recovery_timeout := timeout,
    failure_count := 0, last_failure_time := none, state := .CLOSED }

/-- `CircuitBreaker._should_attempt_reset`:
`last_failure_time is not None and time.time() - last_failure_time >= recovery_timeout`. -/
def CircuitBreaker.shouldAttemptReset (cb : CircuitBreaker) (now : ℚ) : Bool :=
  match cb.last_failure_time with
  | some t => cb.recovery_timeout ≤ now - t
  | none => false

/-- `CircuitBreaker._on_success`: reset the failure counter; close the breaker
if it was half-open. -/
def CircuitBreaker.onSuccess (cb : CircuitBreaker) : CircuitBreaker :=
  { cb with failure_count := 0,
            state := if cb.state = .HALF_OPEN then .CLOSED else cb.state }

/-- `CircuitBreaker._on_failure`: count the failure, remember its time, open
the breaker once the threshold is reached. -/
def CircuitBreaker.onFailure (cb : CircuitBreaker) (now : ℚ) : CircuitBreaker :=
  let fc := cb.failure_count + 1
  { cb with failure_count := fc, last_failure_time := some now,
            state := if cb.failure_threshold ≤ fc then .OPEN else cb.state }

/-- Outcome of `CircuitBreaker.call`: the open-breaker exception was raised
without invoking the wrapped function, or the function was invoked and
returned / raised. -/
inductive CBResult where
  | rejected
  | succeeded
  | failed
deriving DecidableEq, Repr

/-- The gate at the top of `CircuitBreaker.call`: while `OPEN`, either move to
`HALF_OPEN` (reset timeout elapsed) or refuse the call (`none` = raise
`CircuitBreakerOpenException` without invoking the function). -/
def CircuitBreaker.gate (cb : CircuitBreaker) (now : ℚ) : Option CircuitBreaker :=
  if cb.state = .OPEN then
    if cb.shouldAttemptReset now then some { cb with state := .HALF_OPEN } else none
  else some cb

/-- Invoking the wrapped function through the breaker: `ok` tells whether the
function returns normally or raises an expected exception. -/
def CircuitBreaker.invoke (cb : CircuitBreaker) (now : ℚ) (ok : Bool) :
    CBResult × CircuitBreaker :=
  if ok then (.succeeded, cb.onSuccess) else (.failed, cb.onFailure now)

/-- `CircuitBreaker.call` at time `now`, for a wrapped function whose outcome
would be `ok`. -/
def CircuitBreaker.call (cb : CircuitBreaker) (now : ℚ) (ok : Bool) :
    CBResult × CircuitBreaker :=
  match cb.gate now with
  | none => (.rejected, cb)
  | some cb1 => cb1.invoke now ok

/-- `n` consecutive failing calls, all at time `t`. -/
def CircuitBreaker.failRun (cb : CircuitBreaker) (t : ℚ) : ℕ → CircuitBreaker
  | 0 => cb
  | n + 1 => ((cb.failRun t n).call t false).2

/-! ## Cache manager (`src/converters/cache_manager.py`) -/

/-- A value stored in the cache, abstracted to what `CacheManager` inspects:
an identifier for the JSON payload, the size in MB of the file
`json.dump` produces for it, and `len(str(data))` (used by the 10 KB
memory-cache threshold in `get`). -/
structure CValue where
  payload : ℕ
  sizeMB : ℚ
  strLen : ℕ
deriving DecidableEq, Repr

/-- Association-list lookup (Python `dict` access / file existence check). -/
def assocLookup (l : List (String × α)) (k : String) : Option α :=
  (l.find? (fun p => p.1 == k)).map Prod.snd

/-- Association-list update `d[k] = v` (also models overwriting the cache file
`<k>.json`): the old binding, if any, is replaced. -/
def assocUpsert (l : List (String × α)) (k : String) (v : α) : List (String × α) :=
  l.filter (fun p => p.1 != k) ++ [(k, v)]

/-- Association-list removal `del d[k]` / file deletion. -/
def assocRemove (l : List (String × α)) (k : String) : List (String × α) :=
  l.filter (fun p => p.1 != k)

/-- State of a `CacheManager`: configuration, the in-memory cache, the cache
files on disk, the access-time table (with a logical clock standing for
`time.time()`, which is strictly increasing across accesses) and the
`CacheStats` fields. -/
structure CacheState where
  max_cache_size_mb : ℚ
  memory : List (String × CValue)
  files : List (String × CValue)
  access : List (String × ℕ)
  clock : ℕ
  total_entries : ℕ
  total_size_mb : ℚ
  hit_count : ℕ
  miss_count : ℕ
  hit_rate : ℚ
deriving DecidableEq, Repr

/-- A freshly constructed `CacheManager` over an empty cache directory
(`__init__` with no persisted stats file). -/
def CacheState.init (maxSize : ℚ) : CacheState :=
  { max_cache_size_mb := maxSize, memory := [], files := [], access := [],
    clock := 0, total_entries := 0, total_size_mb := 0,
    hit_count := 0, miss_count := 0, hit_rate := 0 }

/-- `CacheManager._update_hit_rate`. -/
def CacheState.updateHitRate (s : CacheState) : CacheState :=
  let total := s.hit_count + s.miss_count
  if 0 < total then { s with hit_rate := (s.hit_count : ℚ) / (total : ℚ) }
  else { s with hit_rate := 0 }

/-- Record an access time for `key` and advance the clock. -/
def CacheState.touch (s : CacheState) (key : String) : CacheState :=
  { s with access := assocUpsert s.access key s.clock, clock := s.clock + 1 }

/-- `self.stats.hit_count += 1` -/
def CacheState.incHit (s : CacheState) : CacheState :=
  { s with hit_count := s.hit_count + 1 }

/-- `self.stats.miss_count += 1` -/
def CacheState.incMiss (s : CacheState) : CacheState :=
  { s with miss_count := s.miss_count + 1 }

/-- `CacheManager.get`: memory cache first, then the cache file (loading small
data into memory), else a miss; the hit rate is refreshed on every path. -/
def CacheState.get (s : CacheState) (key : String) : Option CValue × CacheState :=
  match assocLookup s.memory key with
  | some v =>
      (some v, ((s.touch key).incHit).updateHitRate)
  | none =>
      match assocLookup s.files key with
      | some v =>
          let s1 := s.touch key
          let s2 := if v.strLen < 10240
                    then { s1 with memory := assocUpsert s1.memory key v }
                    else s1
          (some v, (s2.incHit).updateHitRate)
      | none =>
          (none, (s.incMiss).updateHitRate)

/-- `CacheManager.delete`: drop the key from the memory cache and the access
table; if its cache file exists, remove it and decrement the stats (clamped at
zero, `max(0, ...)`). -/
def CacheState.del (s : CacheState) (key : String) : CacheState :=
  let s1 := { s with memory := assocRemove s.memory key,
                     access := assocRemove s.access key }
  match assocLookup s1.files key with
  | some v =>
      { s1 with files := assocRemove s1.files key,
                total_entries := s1.total_entries - 1,
                total_size_mb := max 0 (s1.total_size_mb - v.sizeMB) }
  | none => s1

/-- The access time `self._access_times.get(f.stem, 0)` used to order cache
files during cleanup. -/
def CacheState.accessOf (s : CacheState) (key : String) : ℕ :=
  (assocLookup s.access key).getD 0

/-- `CacheManager._cleanup_cache`: list the cache files, sort them by access
time (least recently used first; Python's sort is stable, modelled by the
stable `List.insertionSort`), and delete files until `total_size_mb` is at or
below 60% of the maximum size. -/
def CacheState.cleanupCache (s : CacheState) : CacheState :=
  if s.files.isEmpty then s
  else
    let ordered := List.insertionSort
      (fun a b => s.accessOf a.1 ≤ s.accessOf b.1) s.files
    let target := s.max_cache_size_mb * (6 / 10)
    ordered.foldl
      (fun st f => if st.total_size_mb ≤ target then st else st.del f.1) s

/-- `CacheManager.set`: record the access, store into the memory cache, write
the cache file unless `memory_only` (incrementing `total_entries` and adding
the written file's size to `total_size_mb`), then clean up if the size exceeds
80% (`cleanup_threshold`) of the maximum. -/
def CacheState.set (s : CacheState) (key : String) (v : CValue)
    (memory_only : Bool) : Bool × CacheState :=
  let s1 := { s.touch key with memory := assocUpsert s.memory key v }
  let s2 := if memory_only then s1
            else { s1 with files := assocUpsert s1.files key v,
                           total_entries := s1.total_entries + 1,
                           total_size_mb := s1.total_size_mb + v.sizeMB }
  let s3 := if s2.max_cache_size_mb * (8 / 10) < s2.total_size_mb
            then s2.cleanupCache else s2
  (true, s3)

/-! ## OCR health checker (`src/converters/ocr_health_checker.py`) -/

/-- State of `OCRHealthChecker`: the bounded operation history (each record's
`response_time` and `success` flag), the running totals, and the monitoring
flag.  Timestamps are not consulted by the health computation and are
omitted. -/
structure OCRHealth where
  max_history : ℕ
  history : List (ℚ × Bool)
  total_operations : ℕ
  successful_operations : ℕ
  failed_operations : ℕ
  total_response_time : ℚ
  monitoring_active : Bool
deriving DecidableEq, Repr

/-- A fresh checker (default `max_history=100`) after `start_monitoring()`. -/
def OCRHealth.init : OCRHealth :=
  { max_history := 100, history := [], total_operations := 0,
    successful_operations := 0, failed_operations := 0,
    total_response_time := 0, monitoring_active := true }

/-- `OCRHealthChecker.update_stats(response_time, success)`: a no-op while
monitoring is inactive; otherwise append to the `deque(maxlen=max_history)`
(dropping the oldest records beyond the bound) and update the totals. -/
def OCRHealth.updateStats (s : OCRHealth) (rt : ℚ) (ok : Bool) : OCRHealth :=
  if s.monitoring_active then
    let h := s.history ++ [(rt, ok)]
    { s with history := h.drop (h.length - s.max_history),
             total_operations := s.total_operations + 1,
             total_response_time := s.total_response_time + rt,
             successful_operations := s.successful_operations + (if ok then 1 else 0),
             failed_operations := s.failed_operations + (if ok then 0 else 1) }
  else s

/-- `success_rate` as computed in `check_ocr_health`. -/
def OCRHealth.successRate (s : OCRHealth) : ℚ :=
  if 0 < s.total_operations
  then (s.successful_operations : ℚ) / (s.total_operations : ℚ) else 0

/-- `avg_response_time` as computed in `check_ocr_health`. -/
def OCRHealth.avgResponseTime (s : OCRHealth) : ℚ :=
  if 0 < s.total_operations
  then s.total_response_time / (s.total_operations : ℚ) else 0

/-- `recent_operations = list(self.operation_history)[-10:]`. -/
def OCRHealth.recentOperations (s : OCRHealth) : List (ℚ × Bool) :=
  s.history.drop (s.history.length - 10)

/-- `recent_success_rate` as computed in `check_ocr_health`. -/
def OCRHealth.recentSuccessRate (s : OCRHealth) : ℚ :=
  let recent := s.recentOperations
  if recent.isEmpty then 0
  else ((recent.filter (fun op => op.2)).length : ℚ) / (recent.length : ℚ)

/-- `OCRHealthChecker._determine_health_status`. -/
def OCRHealth.determineHealthStatus (s : OCRHealth)
    (success_rate recent_success_rate avg_response_time : ℚ) : String :=
  if s.total_operations = 0 then "healthy"
  else if recent_success_rate < 3 / 10 || 30 < avg_response_time then "critical"
  else if success_rate < 7 / 10 || recent_success_rate < 6 / 10 ||
          10 < avg_response_time then "warning"
  else "healthy"

/-- The `status` field of `OCRHealthChecker.check_ocr_health()`. -/
def OCRHealth.checkStatus (s : OCRHealth) : String :=
  s.determineHealthStatus s.successRate s.recentSuccessRate s.avgResponseTime

/-- A monitoring session: record a list of operations on a fresh checker. -/
def OCRHealth.run (ops : List (ℚ × Bool)) : OCRHealth :=
  ops.foldl (fun s op => s.updateStats op.1 op.2) OCRHealth.init

/-! ## Config validator (`src/config/config_validator.py`) -/

/-- A JSON-loaded Python value as far as `ConfigValidator` distinguishes them:
`int`, `bool`, `float`, `str`, `None`, or anything else (lists, dicts). -/
inductive PyVal where
  | vInt (n : ℤ)
  | vBool (b : Bool)
  | vFloat (q : ℚ)
  | vStr (s : String)
  | vNone
  | vOther
deriving DecidableEq, Repr

/-- The `type` entries of the validation-rule table. -/
inductive PyTy where
  | tInt
  | tFloat
  | tBool
  | tStr
deriving DecidableEq, Repr

/-- Python `isinstance(value, expected_type)`.  Note that `bool` is a subclass
of `int` in Python, so a `bool` value passes an `int` check, while an `int`
does not pass a `float` check. -/
def pyIsinstance : PyVal → PyTy → Bool
  | .vInt _, .tInt => true
  | .vBool _, .tInt => true
  | .vBool _, .tBool => true
  | .vFloat _, .tFloat => true
  | .vStr _, .tStr => true
  | _, _ => false

/-- `expected_type in (int, float)`. -/
def PyTy.isNumeric : PyTy → Bool
  | .tInt => true
  | .tFloat => true
  | _ => false

/-- The numeric value of an `int`, `bool` or `float` for Python comparisons
(`True == 1`, `False == 0`); only consulted after an `isinstance` check
guarantees the value is numeric. -/
def PyVal.num : PyVal → ℚ
  | .vInt n => (n : ℚ)
  | .vBool b => if b then 1 else 0
  | .vFloat q => q
  | _ => 0

/-- Python membership `value in choices` for a list of strings: only an equal
string matches. -/
def pyMemChoices (v : PyVal) (cs : List String) : Bool :=
  match v with
  | .vStr s => cs.contains s
  | _ => false

/-- One row of `ConfigValidator.validation_rules`: the expected type, optional
`min`/`max` bounds (stored as the Python values of the table) and optional
`choices`. -/
structure FieldRule where
  ty : PyTy
  lo : Option PyVal := none
  hi : Option PyVal := none
  choices : Option (List String) := none
deriving DecidableEq, Repr

/-- The `min`/`elif max` clamping step shared by `fix_config_issues` (only run
when `expected_type in (int, float)`; the replacement is the bound value from
the rule table itself). -/
def clampNumeric (r : FieldRule) (v : PyVal) : PyVal :=
  if r.ty.isNumeric then
    match r.lo with
    | some m =>
        if v.num < m.num then m
        else
          match r.hi with
          | some M => if M.num < v.num then M else v
          | none => v
    | none =>
        match r.hi with
        | some M => if M.num < v.num then M else v
        | none => v
  else v

/-- The per-field body of `ConfigValidator.fix_config_issues`: missing or
`None` → default; wrong type → default; out of range → clamped to the violated
bound; not among the choices → first choice. -/
def fixValue (r : FieldRule) (dflt : PyVal) : Option PyVal → PyVal
  | none => dflt
  | some v =>
      if v = .vNone then dflt
      else if !pyIsinstance v r.ty then dflt
      else
        match r.choices with
        | some cs =>
            if pyMemChoices v cs then clampNumeric r v
            else .vStr (cs.headD "")
        | none => clampNumeric r v

/-- The per-field check of `ConfigValidator._validate_all_fields`, `true` when
the field raises no issue: present and not `None`, of the expected type, within
the `min`/`elif max` bounds when numeric, and among the choices when given. -/
def validValue (r : FieldRule) : Option PyVal → Bool
  | none => false
  | some v =>
      !(v = .vNone) &&
      pyIsinstance v r.ty &&
      (if r.ty.isNumeric then
        (match r.lo with
         | some m =>
             if v.num < m.num then false
             else
               match r.hi with
               | some M => !(M.num < v.num)
               | none => true
         | none =>
             match r.hi with
             | some M => !(M.num < v.num)
             | none => true)
       else true) &&
      (match r.choices with
       | some cs => pyMemChoices v cs
       | none => true)

/-- Sanity conditions on a rule row that the concrete table satisfies: the
default and each bound are themselves valid for the rule, the choice list is
non-empty with a valid first element, and numeric rules carry no choice list.
(Used to factor the per-field proofs; checked by computation on the table.) -/
def ruleWellFormed (r : FieldRule) (dflt : PyVal) : Bool :=
  validValue r (some dflt) &&
  (match r.lo with
   | some m => validValue r (some m)
   | none => true) &&
  (match r.hi with
   | some M => validValue r (some M)
   | none => true) &&
  (match r.choices with
   | some cs => !cs.isEmpty && validValue r (some (.vStr (cs.headD "")))
   | none => true) &&
  (!r.ty.isNumeric || r.choices.isNone)

/-- `ConfigValidator.validation_rules` together with `default_config`:
`(field, rule, default)` rows, in source order. -/
def validationRules : List (String × FieldRule × PyVal) :=
  [("gpu_memory_limit", ⟨.tInt, some (.vInt 512), some (.vInt 32768), none⟩, .vInt 4096),
   ("cpu_threads", ⟨.tInt, some (.vInt 1), some (.vInt 32), none⟩, .vInt 4),
   ("batch_size", ⟨.tInt, some (.vInt 1), some (.vInt 20), none⟩, .vInt 5),
   ("max_image_size", ⟨.tInt, some (.vInt 512), some (.vInt 4096), none⟩, .vInt 2048),
   ("ocr_confidence_threshold",
     ⟨.tFloat, some (.vFloat 0), some (.vFloat 1), none⟩, .vFloat (6 / 10)),
   ("enable_gpu", ⟨.tBool, none, none, none⟩, .vBool true),
   ("fallback_to_cpu", ⟨.tBool, none, none, none⟩, .vBool true),
   ("cache_enabled", ⟨.tBool, none, none, none⟩, .vBool true),
   ("cache_size_mb", ⟨.tInt, some (.vInt 64), some (.vInt 2048), none⟩, .vInt 512),
   ("timeout_seconds", ⟨.tInt, some (.vInt 30), some (.vInt 3600), none⟩, .vInt 300),
   ("retry_attempts", ⟨.tInt, some (.vInt 1), some (.vInt 10), none⟩, .vInt 3),
   ("log_level",
     ⟨.tStr, none, none, some ["DEBUG", "INFO", "WARNING", "ERROR"]⟩, .vStr "INFO")]

/-- A configuration mapping: for each field name, its value if present
(`config.get(field)`); fields not in the mapping yield `none`. -/
def PyConfig := String → Option PyVal

/-- Look up a field's rule row. -/
def findRule (field : String) : Option (FieldRule × PyVal) :=
  (validationRules.find? (fun row => row.1 == field)).map Prod.snd

/-- `ConfigValidator.fix_config_issues`: copy the config and repair every field
of the rule table; fields outside the table are passed through unchanged. -/
def fixConfigIssues (c : PyConfig) : PyConfig := fun field =>
  match findRule field with
  | some (r, dflt) => some (fixValue r dflt (c field))
  | none => c field

/-! ## PDF page deletion (`src/pdf_operations.py`) -/

/-- `PDFOperations.delete_selected_pages` on a loaded document with `n` pages
and the selected-page index set: refuse when nothing is selected
(`if not self.selected_pages`) or when every page is selected
(`selected_count >= total_pages`, checked before any file dialog or write);
otherwise rebuild the document from the unselected pages in original order
(`for page_num in range(len(...)): if page_num not in self.selected_pages`).
The result is the list of original page indices kept. -/
def deleteSelectedPages (n : ℕ) (selected : Finset ℕ) : Option (List ℕ) :=
  if selected = ∅ then none
  else if n ≤ selected.card then none
  else some ((List.range n).filter (fun i => decide (i ∉ selected)))

/-! ## Theorems -/

/-- C9: for the text remover's matching predicate with target "Confidential":
with case-insensitive matching and whole-word off, the target matches inside
the span text "TopConfidentialReport"; with case-insensitive matching and
whole-word on, it does not match inside "TopConfidentialReport" but does match
inside "Confidential report". -/
theorem text_remover_confidential_matching :
    textMatches "TopConfidentialReport" "Confidential" false false = true ∧
    textMatches "TopConfidentialReport" "Confidential" false true = false ∧
    textMatches "Confidential report" "Confidential" false true = true := by
  refine ⟨by with_unfolding_all decide, by with_unfolding_all decide,
    by with_unfolding_all decide⟩

/-- C2 (code bug): `PDFToPPTConverter.convert` reads
`include_text = kwargs.get('include_text', True)`, so when the option is not
supplied a caption IS added to a slide with non-empty page text — contradicting
`get_default_options`, which declares `'include_text': False` ("默认不包含文本").
At the failing input (option omitted, page text "hello") the code produces the
caption "hello"; the truncation behaviour itself (200 characters plus an
ellipsis for longer text, full text otherwise) matches the claim. -/
theorem pdf_to_ppt_include_text_default_bug :
    pdfToPptDefaultIncludeText = false ∧
    convertPageCaption none "hello" = some "hello" ∧
    convertPageCaption (some false) "hello" = none ∧
    convertPageCaption (some true)
      (String.mk (List.replicate 250 'a')) =
      some ((String.mk (List.replicate 250 'a')).take 200 ++ "...") ∧
    convertPageCaption (some true) "short" = some "short" := by
  refine ⟨rfl, by with_unfolding_all decide, by with_unfolding_all decide,
    by with_unfolding_all decide, by with_unfolding_all decide⟩

/-- C3 counterexample: in the styled Word→PPT engine, splitting after 15
accumulated lines starts a continuation slide titled with the fixed string
"内容续页", not the current heading "T" suffixed with "(续)". -/
theorem word_to_ppt_continuation_title_counterexample :
    (createPptSlides ([WBlock.heading 1 "T"] ++
        List.replicate 15 (WBlock.para "x") ++ [WBlock.para "y"])).map Prod.fst =
      ["T", "内容续页"] ∧
    ("内容续页" : String) ≠ "T" ++ "(续)" := by
  refine ⟨by decide, by decide⟩

/-- C3 (amended): in the styled Word→PPT engine, a non-level-1-heading block
accumulates onto the current slide as long as the combined character count
stays at most 800 and the slide holds fewer than 15 lines; otherwise the
current slide is finalized and a continuation slide is started whose title is
the fixed string "内容续页" (not the heading text suffixed with "(续)"). -/
theorem word_to_ppt_slide_accumulation (slides : List (String × List String))
    (T : String) (content : List String) (chars : ℕ) (t : String) :
    (¬ (800 < chars + t.length ∨ 15 ≤ content.length) →
      wStep ⟨slides, some T, content, chars⟩ (WBlock.para t) =
        ⟨slides, some T, content ++ [t], chars + t.length⟩) ∧
    ((800 < chars + t.length ∨ 15 ≤ content.length) →
      wStep ⟨slides, some T, content, chars⟩ (WBlock.para t) =
        ⟨slides ++ [(T, content)], some "内容续页", [t], t.length⟩) := by
  constructor
  · intro h
    rw [not_or] at h
    simp [wStep, WBlock.isH1, WBlock.text, h.1, h.2]
  · intro h
    rcases h with h | h <;> simp [wStep, WBlock.isH1, WBlock.text, wFlush, h]

/-- Witness for `word_to_ppt_slide_accumulation`: a sixth character pushes a
795-character slide over the 800 limit and a "内容续页" slide is started. -/
theorem word_to_ppt_slide_accumulation_witness :
    wStep ⟨[], some "T", ["a"], 795⟩ (WBlock.para "hello!") =
      ⟨[("T", ["a"])], some "内容续页", ["hello!"], 6⟩ :=
  (word_to_ppt_slide_accumulation [] "T" ["a"] 795 "hello!").2 (by decide)

/-- After `k ≤ T` consecutive failing calls (threshold `T ≥ 1`), the breaker
holds `failure_count = k`, remembers the failure time, and is `OPEN` exactly
once the threshold is reached. -/
theorem CircuitBreaker.failRun_init (T : ℕ) (R t0 : ℚ) (hT : 1 ≤ T) :
    ∀ k, k ≤ T →
      (CircuitBreaker.init T R).failRun t0 k =
        { failure_threshold := T, recovery_timeout := R, failure_count := k,
          last_failure_time := if k = 0 then none else some t0,
          state := if T ≤ k then .OPEN else .CLOSED } := by
  intro k
  induction k with
  | zero =>
      intro _
      have hs : (if T = 0 then CBStatus.OPEN else CBStatus.CLOSED) = CBStatus.CLOSED :=
        if_neg (by omega)
      simp [CircuitBreaker.failRun, CircuitBreaker.init, hs]
  | succ k ih =>
      intro hk
      have hk' : k ≤ T := Nat.le_of_succ_le hk
      have hkT : ¬ T ≤ k := by omega
      rw [CircuitBreaker.failRun, ih hk', if_neg hkT]
      simp [CircuitBreaker.call, CircuitBreaker.gate, CircuitBreaker.invoke,
        CircuitBreaker.onFailure]

/-- C4: after `T` consecutive failures the breaker is OPEN; a call before
`recovery_timeout` has elapsed since the last failure is rejected (the
breaker-open exception) without invoking the function and without changing the
state; a call after the timeout passes the gate in state HALF_OPEN and invokes
the function — on success the breaker is CLOSED with `failure_count = 0`, on
failure it is OPEN again. -/
theorem circuit_breaker_lifecycle (T : ℕ) (R t0 t1 t2 : ℚ) (ok : Bool)
    (hT : 1 ≤ T) (h1 : t1 - t0 < R) (h2 : R ≤ t2 - t0) :
    ((CircuitBreaker.init T R).failRun t0 T).state = .OPEN ∧
    (((CircuitBreaker.init T R).failRun t0 T).call t1 ok).1 = .rejected ∧
    (((CircuitBreaker.init T R).failRun t0 T).call t1 ok).2 =
      (CircuitBreaker.init T R).failRun t0 T ∧
    ((CircuitBreaker.init T R).failRun t0 T).gate t2 =
      some { (CircuitBreaker.init T R).failRun t0 T with state := .HALF_OPEN } ∧
    (((CircuitBreaker.init T R).failRun t0 T).call t2 true).1 = .succeeded ∧
    (((CircuitBreaker.init T R).failRun t0 T).call t2 true).2.state = .CLOSED ∧
    (((CircuitBreaker.init T R).failRun t0 T).call t2 true).2.failure_count = 0 ∧
    (((CircuitBreaker.init T R).failRun t0 T).call t2 false).1 = .failed ∧
    (((CircuitBreaker.init T R).failRun t0 T).call t2 false).2.state = .OPEN := by
  have hs := CircuitBreaker.failRun_init T R t0 hT T le_rfl
  rw [hs]
  have hT0 : ¬ T = 0 := by omega
  have hnot : ¬ (R ≤ t1 - t0) := not_le.mpr h1
  refine ⟨?_, ?_, ?_, ?_, ?_, ?_, ?_, ?_, ?_⟩ <;>
    simp [CircuitBreaker.call, CircuitBreaker.gate, CircuitBreaker.invoke,
      CircuitBreaker.shouldAttemptReset, CircuitBreaker.onSuccess,
      CircuitBreaker.onFailure, hT0, hnot, h2, Nat.le_succ_of_le]

/-- Witness for `circuit_breaker_lifecycle` at `T = 2`, `R = 5`, failures at
time 0, a rejected call at time 3 and gated calls at time 7. -/
theorem circuit_breaker_lifecycle_witness :
    (1 ≤ 2 ∧ (3 : ℚ) - 0 < 5 ∧ (5 : ℚ) ≤ 7 - 0) ∧
    (((CircuitBreaker.init 2 5).failRun 0 2).state = .OPEN ∧
     (((CircuitBreaker.init 2 5).failRun 0 2).call 3 true).1 = .rejected ∧
     (((CircuitBreaker.init 2 5).failRun 0 2).call 3 true).2 =
       (CircuitBreaker.init 2 5).failRun 0 2 ∧
     ((CircuitBreaker.init 2 5).failRun 0 2).gate 7 =
       some { (CircuitBreaker.init 2 5).failRun 0 2 with state := .HALF_OPEN } ∧
     (((CircuitBreaker.init 2 5).failRun 0 2).call 7 true).1 = .succeeded ∧
     (((CircuitBreaker.init 2 5).failRun 0 2).call 7 true).2.state = .CLOSED ∧
     (((CircuitBreaker.init 2 5).failRun 0 2).call 7 true).2.failure_count = 0 ∧
     (((CircuitBreaker.init 2 5).failRun 0 2).call 7 false).1 = .failed ∧
     (((CircuitBreaker.init 2 5).failRun 0 2).call 7 false).2.state = .OPEN) :=
  ⟨⟨by norm_num, by norm_num, by norm_num⟩,
   circuit_breaker_lifecycle 2 5 0 3 7 true (by norm_num) (by norm_num) (by norm_num)⟩

/-- Looking up a key right after storing it finds the stored value. -/
theorem assocLookup_upsert (l : List (String × α)) (k : String) (v : α) :
    assocLookup (assocUpsert l k v) k = some v := by
  induction l with
  | nil => simp [assocLookup, assocUpsert, List.find?]
  | cons p t ih =>
      by_cases hp : p.1 = k
      · simp only [assocUpsert, List.filter_cons] at ih ⊢
        simp [hp, ih]
      · simp only [assocUpsert, List.filter_cons] at ih ⊢
        simp [assocLookup, List.find?, hp, ih]

/-- Storing a value keeps the association-list keys duplicate-free. -/
theorem assocUpsert_nodup_keys (l : List (String × α)) (k : String) (v : α)
    (h : (l.map Prod.fst).Nodup) :
    ((assocUpsert l k v).map Prod.fst).Nodup := by
  rw [assocUpsert, List.map_append, List.nodup_append]
  refine ⟨?_, List.nodup_singleton k, ?_⟩
  · exact (List.Sublist.map Prod.fst (List.filter_sublist l)).nodup h
  · intro a ha
    simp only [List.mem_map, List.mem_filter] at ha
    obtain ⟨q, ⟨_, hq⟩, rfl⟩ := ha
    simp only [List.map_cons, List.map_nil, List.mem_singleton]
    intro hak
    rw [bne_iff_ne] at hq
    exact hq hak

/-- Storing a value adds exactly one entry beyond the other keys' entries. -/
theorem assocUpsert_length (l : List (String × α)) (k : String) (v : α) :
    (assocUpsert l k v).length = (l.filter (fun p => p.1 != k)).length + 1 := by
  simp [assocUpsert]

/-- Refreshing the hit rate never changes the hit counter. -/
theorem updateHitRate_hit_count (s : CacheState) :
    s.updateHitRate.hit_count = s.hit_count := by
  by_cases h : 0 < s.hit_count + s.miss_count <;>
    simp [CacheState.updateHitRate, h]

/-- Refreshing the hit rate never changes the miss counter. -/
theorem updateHitRate_miss_count (s : CacheState) :
    s.updateHitRate.miss_count = s.miss_count := by
  by_cases h : 0 < s.hit_count + s.miss_count <;>
    simp [CacheState.updateHitRate, h]

/-- The hit rate after a refresh is the quotient of the counters, or zero when
no request has been counted. -/
theorem updateHitRate_hit_rate (s : CacheState) :
    s.updateHitRate.hit_rate =
      if 0 < s.hit_count + s.miss_count
      then (s.hit_count : ℚ) / ((s.hit_count + s.miss_count : ℕ) : ℚ)
      else 0 := by
  by_cases h : 0 < s.hit_count + s.miss_count <;>
    simp [CacheState.updateHitRate, h]

/-- `set` without eviction: when the size after the write stays at or below
the 80% cleanup threshold, `set(k, v, memory_only=False)` only records the
access, stores the value in both caches, and bumps the entry/size statistics. -/
theorem cacheSet_no_cleanup (s : CacheState) (k : String) (v : CValue)
    (hclean : ¬ (s.max_cache_size_mb * (8 / 10) < s.total_size_mb + v.sizeMB)) :
    (s.set k v false).2 =
      { s with memory := assocUpsert s.memory k v,
               files := assocUpsert s.files k v,
               access := assocUpsert s.access k s.clock,
               clock := s.clock + 1,
               total_entries := s.total_entries + 1,
               total_size_mb := s.total_size_mb + v.sizeMB } := by
  simp [CacheState.set, CacheState.touch, hclean]

/-- C5 (amended): provided the write leaves `total_size_mb` at or below the
80% cleanup threshold (so `_cleanup_cache` cannot evict the fresh key), a
`set(k, v)` followed immediately by a `get(k)` returns `v` and increments
`hit_count` by 1 leaving `miss_count` unchanged; unconditionally, a `get` on a
key absent from both caches increments `miss_count` by 1 leaving `hit_count`
unchanged, and after every `get` the hit rate is `hit/(hit+miss)` (0 when no
request was counted). -/
theorem cache_hit_miss_accounting (s : CacheState) (k : String) (v : CValue)
    (hclean : ¬ (s.max_cache_size_mb * (8 / 10) < s.total_size_mb + v.sizeMB)) :
    (((s.set k v false).2.get k).1 = some v ∧
     ((s.set k v false).2.get k).2.hit_count = s.hit_count + 1 ∧
     ((s.set k v false).2.get k).2.miss_count = s.miss_count) ∧
    (∀ (t : CacheState) (k2 : String),
      assocLookup t.memory k2 = none → assocLookup t.files k2 = none →
      ((t.get k2).1 = none ∧
       (t.get k2).2.miss_count = t.miss_count + 1 ∧
       (t.get k2).2.hit_count = t.hit_count)) ∧
    (∀ (t : CacheState) (k2 : String),
      (t.get k2).2.hit_rate =
        if 0 < (t.get k2).2.hit_count + (t.get k2).2.miss_count
        then ((t.get k2).2.hit_count : ℚ) /
          (((t.get k2).2.hit_count + (t.get k2).2.miss_count : ℕ) : ℚ)
        else 0) := by
  refine ⟨?_, ?_, ?_⟩
  · rw [cacheSet_no_cleanup s k v hclean]
    simp [CacheState.get, assocLookup_upsert, CacheState.touch,
      CacheState.incHit, updateHitRate_hit_count, updateHitRate_miss_count]
  · intro t k2 hmem hfile
    simp [CacheState.get, hmem, hfile, CacheState.incMiss,
      updateHitRate_hit_count, updateHitRate_miss_count]
  · intro t k2
    unfold CacheState.get
    cases hmem : assocLookup t.memory k2 with
    | some v2 =>
        simp [hmem, CacheState.incHit, CacheState.touch,
          updateHitRate_hit_count, updateHitRate_miss_count,
          updateHitRate_hit_rate]
    | none =>
        cases hfile : assocLookup t.files k2 with
        | some v2 =>
            simp only [hmem, hfile]
            split <;>
              simp [CacheState.incHit, CacheState.touch,
                updateHitRate_hit_count, updateHitRate_miss_count,
                updateHitRate_hit_rate]
        | none =>
            simp [hmem, hfile, CacheState.incMiss,
              updateHitRate_hit_count, updateHitRate_miss_count,
              updateHitRate_hit_rate]

/-- Witness for `cache_hit_miss_accounting`: on a fresh 100 MB cache, a 2 MB
`set` of key "a" followed by `get("a")` is a hit, a `get("z")` on the fresh
cache is a miss, and the rates follow the counters. -/
theorem cache_hit_miss_accounting_witness :
    (¬ ((CacheState.init 100).max_cache_size_mb * (8 / 10) <
        (CacheState.init 100).total_size_mb + (⟨1, 2, 3⟩ : CValue).sizeMB)) ∧
    ((((CacheState.init 100).set "a" ⟨1, 2, 3⟩ false).2.get "a").1 =
        some ⟨1, 2, 3⟩ ∧
      (((CacheState.init 100).set "a" ⟨1, 2, 3⟩ false).2.get "a").2.hit_count = 1 ∧
      (((CacheState.init 100).set "a" ⟨1, 2, 3⟩ false).2.get "a").2.miss_count = 0) ∧
    (((CacheState.init 100).get "z").1 = none ∧
      ((CacheState.init 100).get "z").2.miss_count = 1 ∧
      ((CacheState.init 100).get "z").2.hit_count = 0) ∧
    ((CacheState.init 100).get "z").2.hit_rate =
      (if 0 < ((CacheState.init 100).get "z").2.hit_count +
          ((CacheState.init 100).get "z").2.miss_count
       then (((CacheState.init 100).get "z").2.hit_count : ℚ) /
         ((((CacheState.init 100).get "z").2.hit_count +
            ((CacheState.init 100).get "z").2.miss_count : ℕ) : ℚ)
       else 0) := by
  have hclean : ¬ ((CacheState.init 100).max_cache_size_mb * (8 / 10) <
      (CacheState.init 100).total_size_mb + (⟨1, 2, 3⟩ : CValue).sizeMB) := by
    show ¬ ((100 : ℚ) * (8 / 10) < 0 + 2)
    norm_num
  have h := cache_hit_miss_accounting (CacheState.init 100) "a" ⟨1, 2, 3⟩ hclean
  exact ⟨hclean,
    by simpa [CacheState.init] using h.1,
    by simpa [CacheState.init] using
      h.2.1 (CacheState.init 100) "z" rfl rfl,
    h.2.2 (CacheState.init 100) "z"⟩

/-- C10: `set` with file persistence increments `total_entries` and adds the
written file's size to `total_size_mb` unconditionally — also when the key is
already cached — so two `set`s of the same key leave `total_entries` strictly
above the number of distinct cache files on disk. -/
theorem cache_set_overcounts_rewrites (s : CacheState) (k : String)
    (v v2 : CValue)
    (hnodup : (s.files.map Prod.fst).Nodup)
    (hcount : s.files.length ≤ s.total_entries)
    (h1 : ¬ (s.max_cache_size_mb * (8 / 10) < s.total_size_mb + v.sizeMB))
    (h2 : ¬ (s.max_cache_size_mb * (8 / 10) <
        s.total_size_mb + v.sizeMB + v2.sizeMB)) :
    ((s.set k v false).2.total_entries = s.total_entries + 1 ∧
     (s.set k v false).2.total_size_mb = s.total_size_mb + v.sizeMB) ∧
    k ∈ (s.set k v false).2.files.map Prod.fst ∧
    (((s.set k v false).2.set k v2 false).2.total_entries = s.total_entries + 2 ∧
     ((((s.set k v false).2.set k v2 false).2.files.map Prod.fst).Nodup) ∧
     ((s.set k v false).2.set k v2 false).2.files.length <
       ((s.set k v false).2.set k v2 false).2.total_entries) := by
  have hset1 := cacheSet_no_cleanup s k v h1
  have h2' : ¬ ((s.set k v false).2.max_cache_size_mb * (8 / 10) <
      (s.set k v false).2.total_size_mb + v2.sizeMB) := by
    rw [hset1]
    exact h2
  have hset2 := cacheSet_no_cleanup (s.set k v false).2 k v2 h2'
  refine ⟨⟨by rw [hset1], by rw [hset1]⟩, ?_, ?_, ?_, ?_⟩
  · rw [hset1]
    simp [assocUpsert]
  · rw [hset2, hset1]
  · rw [hset2, hset1]
    exact assocUpsert_nodup_keys _ k v2 (assocUpsert_nodup_keys _ k v hnodup)
  · rw [hset2, hset1]
    have hlen2 : (assocUpsert (assocUpsert s.files k v) k v2).length =
        ((assocUpsert s.files k v).filter (fun p => p.1 != k)).length + 1 :=
      assocUpsert_length _ k v2
    have hfilter : (assocUpsert s.files k v).filter (fun p => p.1 != k) =
        s.files.filter (fun p => p.1 != k) := by
      simp [assocUpsert, List.filter_append, List.filter_filter]
    have hle : (s.files.filter (fun p => p.1 != k)).length ≤ s.files.length :=
      List.length_filter_le _ _
    simp only [hlen2, hfilter]
    omega

/-- Witness for `cache_set_overcounts_rewrites`: on a fresh 100 MB cache, two
`set`s of key "a" (1 MB then 2 MB files) leave `total_entries = 2` but a
single cache file on disk. -/
theorem cache_set_overcounts_rewrites_witness :
    ((((CacheState.init 100).files.map Prod.fst).Nodup) ∧
     (CacheState.init 100).files.length ≤ (CacheState.init 100).total_entries ∧
     ¬ ((CacheState.init 100).max_cache_size_mb * (8 / 10) <
        (CacheState.init 100).total_size_mb + (⟨0, 1, 1⟩ : CValue).sizeMB) ∧
     ¬ ((CacheState.init 100).max_cache_size_mb * (8 / 10) <
        (CacheState.init 100).total_size_mb + (⟨0, 1, 1⟩ : CValue).sizeMB +
          (⟨0, 2, 1⟩ : CValue).sizeMB)) ∧
    (((CacheState.init 100).set "a" ⟨0, 1, 1⟩ false).2.set "a"
        ⟨0, 2, 1⟩ false).2.total_entries = 2 ∧
    (((CacheState.init 100).set "a" ⟨0, 1, 1⟩ false).2.set "a"
        ⟨0, 2, 1⟩ false).2.files.length <
      (((CacheState.init 100).set "a" ⟨0, 1, 1⟩ false).2.set "a"
        ⟨0, 2, 1⟩ false).2.total_entries := by
  have ha : ¬ ((CacheState.init 100).max_cache_size_mb * (8 / 10) <
      (CacheState.init 100).total_size_mb + (⟨0, 1, 1⟩ : CValue).sizeMB) := by
    show ¬ ((100 : ℚ) * (8 / 10) < 0 + 1)
    norm_num
  have hb : ¬ ((CacheState.init 100).max_cache_size_mb * (8 / 10) <
      (CacheState.init 100).total_size_mb + (⟨0, 1, 1⟩ : CValue).sizeMB +
        (⟨0, 2, 1⟩ : CValue).sizeMB) := by
    show ¬ ((100 : ℚ) * (8 / 10) < 0 + 1 + 2)
    norm_num
  have h := cache_set_overcounts_rewrites (CacheState.init 100) "a"
    ⟨0, 1, 1⟩ ⟨0, 2, 1⟩ (by simp [CacheState.init]) (by simp [CacheState.init])
    ha hb
  exact ⟨⟨by simp [CacheState.init], by simp [CacheState.init], ha, hb⟩,
    by simpa [CacheState.init] using h.2.2.1,
    h.2.2.2.2⟩

/-- Inserting a pair into a list with `orderedInsert` (descending priority)
passes only strictly-higher-priority elements, so the sublist at any fixed
priority `p` gains the new pair at its front when its priority is `p` and is
unchanged otherwise. -/
theorem filter_key_orderedInsert (p : ℤ) (a : String × ℤ) :
    ∀ l : List (String × ℤ),
      (List.orderedInsert (fun x y => y.2 ≤ x.2) a l).filter
          (fun x => decide (x.2 = p)) =
        if a.2 = p then
          a :: l.filter (fun x => decide (x.2 = p))
        else l.filter (fun x => decide (x.2 = p)) := by
  intro l
  induction l with
  | nil =>
      by_cases hap : a.2 = p <;> simp [List.orderedInsert, hap]
  | cons b t ih =>
      rw [List.orderedInsert]
      by_cases hr : b.2 ≤ a.2
      · rw [if_pos hr]
        by_cases hap : a.2 = p <;> simp [List.filter_cons, hap]
      · rw [if_neg hr]
        have hlt : a.2 < b.2 := lt_of_not_le hr
        by_cases hap : a.2 = p
        · have hbp : ¬ b.2 = p := by
            intro hbp
            rw [hap] at hlt
            rw [hbp] at hlt
            exact lt_irrefl p hlt
          simp [List.filter_cons, hbp, ih, hap]
        · by_cases hbp : b.2 = p <;> simp [List.filter_cons, hbp, ih, hap]

/-- Python's stable sort keeps the equal-priority pairs of the input in their
original relative order: filtering the sorted list at any fixed priority gives
the same list as filtering the input. -/
theorem filter_key_pySort (p : ℤ) :
    ∀ l : List (String × ℤ),
      (pySortByPriorityDesc l).filter (fun x => decide (x.2 = p)) =
        l.filter (fun x => decide (x.2 = p)) := by
  intro l
  induction l with
  | nil => rfl
  | cons a t ih =>
      show (List.orderedInsert _ a (pySortByPriorityDesc t)).filter _ = _
      rw [filter_key_orderedInsert]
      by_cases hap : a.2 = p <;> simp [List.filter_cons, hap, ih]

/-- The sorted list is ordered by descending priority. -/
theorem pairwise_pySort (l : List (String × ℤ)) :
    (pySortByPriorityDesc l).Pairwise (fun a b => b.2 ≤ a.2) := by
  haveI : IsTotal (String × ℤ) (fun a b => b.2 ≤ a.2) :=
    ⟨fun a b => le_total b.2 a.2⟩
  haveI : IsTrans (String × ℤ) (fun a b => b.2 ≤ a.2) :=
    ⟨fun a b c h1 h2 => le_trans h2 h1⟩
  exact List.sorted_insertionSort _ l

/-- C1: `get_converters_for_format` returns exactly the names of the
converters whose declared input and output formats match case-insensitively,
sorted by descending priority with ties kept in registration (insertion)
order; the two-argument `get_converter` takes the head of that list and yields
no converter when it is empty. -/
theorem converter_factory_format_resolution (reg : ConverterRegistry)
    (input_format output_format : String) :
    (∀ x, x ∈ getConvertersForFormatPairs reg input_format output_format ↔
      ∃ nm, nm ∈ reg ∧ formatMatches nm.2 input_format output_format = true ∧
        x = (nm.1, nm.2.priority)) ∧
    (getConvertersForFormatPairs reg input_format output_format).Pairwise
      (fun a b => b.2 ≤ a.2) ∧
    (∀ p : ℤ,
      (getConvertersForFormatPairs reg input_format output_format).filter
          (fun x => decide (x.2 = p)) =
        (suitableConverters reg input_format output_format).filter
          (fun x => decide (x.2 = p))) ∧
    getConvertersForFormat reg input_format output_format =
      (getConvertersForFormatPairs reg input_format output_format).map Prod.fst ∧
    getConverterByFormats reg input_format output_format =
      (getConvertersForFormat reg input_format output_format).head? := by
  refine ⟨?_, pairwise_pySort _, fun p => filter_key_pySort p _, rfl, ?_⟩
  · intro x
    have hmem : x ∈ getConvertersForFormatPairs reg input_format output_format ↔
        x ∈ suitableConverters reg input_format output_format :=
      List.mem_insertionSort _
    rw [hmem]
    simp only [suitableConverters, List.mem_map, List.mem_filter]
    constructor
    · rintro ⟨nm, ⟨hnm, hfmt⟩, hx⟩
      exact ⟨nm, hnm, hfmt, hx.symm⟩
    · rintro ⟨nm, hnm, hfmt, hx⟩
      exact ⟨nm, ⟨hnm, hfmt⟩, hx.symm⟩
  · cases h : getConvertersForFormat reg input_format output_format <;>
      simp [getConverterByFormats, h]

/-- Counting the selected pages among `0..n-1`: the number of range elements
lying in `sel` is the size of the part of `sel` below `n`. -/
theorem length_filter_range_mem (sel : Finset ℕ) :
    ∀ n, ((List.range n).filter (fun i => decide (i ∈ sel))).length =
      (sel.filter (fun i => i < n)).card := by
  intro n
  induction n with
  | zero =>
      simp
  | succ n ih =>
      rw [List.range_succ, List.filter_append, List.length_append, ih]
      have hcong : sel.filter (fun i => i < n + 1) =
          sel.filter (fun i => i < n ∨ i = n) := by
        apply Finset.filter_congr
        intro i _
        simp [Nat.lt_succ_iff_lt_or_eq]
      rw [hcong, Finset.filter_or]
      have hdisj : Disjoint (sel.filter (fun i => i < n))
          (sel.filter (fun i => i = n)) := by
        simp only [Finset.disjoint_filter]
        intro i _ hlt heq
        omega
      rw [Finset.card_union_of_disjoint hdisj, Finset.filter_eq' sel n]
      by_cases hn : n ∈ sel <;> simp [hn]

/-- C8: deleting a selected page set of size `k < n` from an `n`-page document
keeps exactly the unselected pages, in their original relative order (the
result is the order-preserving sublist of `0..n-1` avoiding the selection, of
length `n − k`); selecting at least every page is rejected with no output
written. -/
theorem delete_selected_pages_spec (n k : ℕ) (sel : Finset ℕ)
    (hsub : sel ⊆ Finset.range n) (hne : sel.Nonempty) (hcard : sel.card = k) :
    (k < n →
      deleteSelectedPages n sel =
        some ((List.range n).filter (fun i => decide (i ∉ sel))) ∧
      ((List.range n).filter (fun i => decide (i ∉ sel))).length = n - k ∧
      ((List.range n).filter (fun i => decide (i ∉ sel))).Sublist (List.range n) ∧
      (∀ i, i ∈ (List.range n).filter (fun i => decide (i ∉ sel)) ↔
        i < n ∧ i ∉ sel)) ∧
    (n ≤ k → deleteSelectedPages n sel = none) := by
  constructor
  · intro hk
    have hne' : ¬ sel = ∅ := by
      intro h
      exact Finset.nonempty_iff_ne_empty.mp hne h
    have hcard' : ¬ n ≤ sel.card := by omega
    refine ⟨by simp [deleteSelectedPages, hne', hcard'], ?_, List.filter_sublist _, ?_⟩
    · have hsplit := List.length_eq_length_filter_add
        (l := List.range n) (fun i => decide (i ∈ sel))
      have hmemcount := length_filter_range_mem sel n
      have hfull : sel.filter (fun i => i < n) = sel := by
        apply Finset.filter_true_of_mem
        intro i hi
        exact Finset.mem_range.mp (hsub hi)
      rw [hfull, hcard] at hmemcount
      have hnotform : (List.range n).filter (fun i => decide (i ∉ sel)) =
          (List.range n).filter (fun i => !(decide (i ∈ sel))) := by
        simp
      rw [hnotform]
      rw [List.length_range] at hsplit
      omega
    · intro i
      simp
  · intro hk
    have hcard' : n ≤ sel.card := by omega
    by_cases h : sel = ∅
    · simp [deleteSelectedPages, h]
    · simp [deleteSelectedPages, h, hcard']

/-- Witness for `delete_selected_pages_spec`: a three-page document with page 1
selected keeps pages `[0, 2]`. -/
theorem delete_selected_pages_spec_witness :
    (({1} : Finset ℕ) ⊆ Finset.range 3 ∧ ({1} : Finset ℕ).Nonempty ∧
      ({1} : Finset ℕ).card = 1 ∧ 1 < 3) ∧
    deleteSelectedPages 3 {1} = some [0, 2] := by
  refine ⟨⟨by decide, by decide, by decide, by decide⟩, ?_⟩
  have h := (delete_selected_pages_spec 3 1 {1} (by decide) (by decide)
    (by decide)).1 (by decide)
  rw [h.1]
  decide

/-- Recorded history never outgrows the operation counter (each `update_stats`
appends at most one record and always increments the counter). -/
theorem OCRHealth.run_history_le (ops : List (ℚ × Bool)) :
    ∀ s : OCRHealth, s.history.length ≤ s.total_operations →
      ((ops.foldl (fun s op => s.updateStats op.1 op.2) s).history.length ≤
        (ops.foldl (fun s op => s.updateStats op.1 op.2) s).total_operations) := by
  induction ops with
  | nil => intro s hs; exact hs
  | cons op rest ih =>
      intro s hs
      apply ih
      show (s.updateStats op.1 op.2).history.length ≤
        (s.updateStats op.1 op.2).total_operations
      unfold OCRHealth.updateStats
      by_cases hm : s.monitoring_active = true
      · rw [if_pos hm]
        simp only [List.length_drop, List.length_append, List.length_cons,
          List.length_nil]
        omega
      · rw [if_neg hm]
        exact hs

/-- C6: with zero recorded operations the status is "healthy"; a recent-10
success rate of 0.2 forces "critical" whatever the rest of the history; an
overall success rate of 0.65 with recent-10 rate at least 0.6 and average
response time at most 10 s yields "warning". -/
theorem ocr_health_status_classification :
    (∀ s : OCRHealth, s.total_operations = 0 → s.checkStatus = "healthy") ∧
    (∀ ops : List (ℚ × Bool), (OCRHealth.run ops).recentSuccessRate = 1 / 5 →
      (OCRHealth.run ops).checkStatus = "critical") ∧
    (∀ ops : List (ℚ × Bool), (OCRHealth.run ops).successRate = 13 / 20 →
      3 / 5 ≤ (OCRHealth.run ops).recentSuccessRate →
      (OCRHealth.run ops).avgResponseTime ≤ 10 →
      (OCRHealth.run ops).checkStatus = "warning") := by
  have htotal_ne : ∀ ops : List (ℚ × Bool),
      (OCRHealth.run ops).recentSuccessRate ≠ 0 →
      (OCRHealth.run ops).total_operations ≠ 0 := by
    intro ops hrate h0
    have hlen := OCRHealth.run_history_le ops OCRHealth.init (by simp [OCRHealth.init])
    rw [show (ops.foldl (fun s op => s.updateStats op.1 op.2) OCRHealth.init) =
      OCRHealth.run ops from rfl, h0, Nat.le_zero] at hlen
    have hnil : (OCRHealth.run ops).history = [] :=
      List.eq_nil_of_length_eq_zero hlen
    apply hrate
    simp [OCRHealth.recentSuccessRate, OCRHealth.recentOperations, hnil]
  refine ⟨?_, ?_, ?_⟩
  · intro s h0
    simp [OCRHealth.checkStatus, OCRHealth.determineHealthStatus, h0]
  · intro ops hrate
    have h0 := htotal_ne ops (by rw [hrate]; norm_num)
    have hcrit : (OCRHealth.run ops).recentSuccessRate < 3 / 10 := by
      rw [hrate]; norm_num
    simp [OCRHealth.checkStatus, OCRHealth.determineHealthStatus, h0, hcrit]
  · intro ops hsucc hrec havg
    have h0 : (OCRHealth.run ops).total_operations ≠ 0 := by
      intro h0
      rw [show (OCRHealth.run ops).successRate = 0 by
        simp [OCRHealth.successRate, h0]] at hsucc
      norm_num at hsucc
    have hc1 : ¬ ((OCRHealth.run ops).recentSuccessRate < 3 / 10) := by
      intro h; rw [lt_iff_not_le] at h; apply h; linarith
    have hc2 : ¬ ((30 : ℚ) < (OCRHealth.run ops).avgResponseTime) := by
      intro h; linarith
    have hw : (OCRHealth.run ops).successRate < 7 / 10 := by
      rw [hsucc]; norm_num
    simp [OCRHealth.checkStatus, OCRHealth.determineHealthStatus, h0,
      hc1, hc2, hw]

/-- Witness for `ocr_health_status_classification`: a fresh checker is healthy;
10 operations with 2 successes give recent rate 1/5 and status "critical";
7 successes, 3 failures, 6 successes, 4 failures (1 s each) give overall rate
13/20, recent rate 3/5, average 1 s and status "warning". -/
theorem ocr_health_status_classification_witness :
    (OCRHealth.init.total_operations = 0 ∧ OCRHealth.init.checkStatus = "healthy") ∧
    ((OCRHealth.run (List.replicate 8 ((1 : ℚ), false) ++
        List.replicate 2 ((1 : ℚ), true))).recentSuccessRate = 1 / 5 ∧
      (OCRHealth.run (List.replicate 8 ((1 : ℚ), false) ++
        List.replicate 2 ((1 : ℚ), true))).checkStatus = "critical") ∧
    ((OCRHealth.run (List.replicate 7 ((1 : ℚ), true) ++
        List.replicate 3 ((1 : ℚ), false) ++ List.replicate 6 ((1 : ℚ), true) ++
        List.replicate 4 ((1 : ℚ), false))).successRate = 13 / 20 ∧
      (OCRHealth.run (List.replicate 7 ((1 : ℚ), true) ++
        List.replicate 3 ((1 : ℚ), false) ++ List.replicate 6 ((1 : ℚ), true) ++
        List.replicate 4 ((1 : ℚ), false))).checkStatus = "warning") := by
  have h1 : (OCRHealth.run (List.replicate 8 ((1 : ℚ), false) ++
      List.replicate 2 ((1 : ℚ), true))).recentSuccessRate = 1 / 5 := by
    with_unfolding_all decide
  have h2 : (OCRHealth.run (List.replicate 7 ((1 : ℚ), true) ++
      List.replicate 3 ((1 : ℚ), false) ++ List.replicate 6 ((1 : ℚ), true) ++
      List.replicate 4 ((1 : ℚ), false))).successRate = 13 / 20 := by
    with_unfolding_all decide
  have h3 : (3 : ℚ) / 5 ≤ (OCRHealth.run (List.replicate 7 ((1 : ℚ), true) ++
      List.replicate 3 ((1 : ℚ), false) ++ List.replicate 6 ((1 : ℚ), true) ++
      List.replicate 4 ((1 : ℚ), false))).recentSuccessRate := by
    with_unfolding_all decide
  have h4 : (OCRHealth.run (List.replicate 7 ((1 : ℚ), true) ++
      List.replicate 3 ((1 : ℚ), false) ++ List.replicate 6 ((1 : ℚ), true) ++
      List.replicate 4 ((1 : ℚ), false))).avgResponseTime ≤ 10 := by
    with_unfolding_all decide
  exact ⟨⟨rfl, ocr_health_status_classification.1 OCRHealth.init rfl⟩,
    ⟨h1, ocr_health_status_classification.2.1 _ h1⟩,
    ⟨h2, ocr_health_status_classification.2.2 _ h2 h3 h4⟩⟩

/-- C5 counterexample: from a fresh `CacheManager` with the default 500 MB
limit, `set("k", v)` for a value whose cache file is 450 MB pushes
`total_size_mb` past the 80% cleanup threshold; `_cleanup_cache` then deletes
the just-written key (it is the only cache file), so the immediately following
`get("k")` is a miss: `hit_count` stays 0 and `miss_count` becomes 1, refuting
the claim for this state. -/
theorem cache_set_get_counterexample :
    ((((CacheState.init 500).set "k" ⟨0, 450, 5⟩ false).2.get "k").2.hit_count = 0 ∧
     (((CacheState.init 500).set "k" ⟨0, 450, 5⟩ false).2.get "k").2.miss_count = 1 ∧
     (((CacheState.init 500).set "k" ⟨0, 450, 5⟩ false).2.get "k").1 = none) ∧
    ((CacheState.init 500).set "k" ⟨0, 450, 5⟩ false).1 = true := by
  refine ⟨⟨by with_unfolding_all decide, by with_unfolding_all decide,
    by with_unfolding_all decide⟩, by with_unfolding_all decide⟩

/-- A value passing an `isinstance` check is not `None`. -/
theorem pyIsinstance_ne_vNone (v : PyVal) (ty : PyTy)
    (h : pyIsinstance v ty = true) : ¬ (v = .vNone) := by
  rintro rfl
  cases ty <;> simp [pyIsinstance] at h

/-- A value already inside its rule's bounds is left unchanged by the
`min`/`elif max` clamp. -/
theorem clampNumeric_eq_self (r : FieldRule) (v : PyVal)
    (h : validValue r (some v) = true) : clampNumeric r v = v := by
  obtain ⟨ty, lo, hi, chs⟩ := r
  simp only [validValue, Bool.and_eq_true, Bool.not_eq_true',
    decide_eq_false_iff_not] at h
  obtain ⟨⟨⟨hne, hinst⟩, hrange⟩, hchoice⟩ := h
  cases lo <;> cases hi <;>
    simp only [clampNumeric] at * <;>
    split_ifs at hrange ⊢ <;> simp_all

/-- `fix_config_issues` leaves a field that already satisfies its rule
unchanged. -/
theorem fixValue_eq_of_valid (r : FieldRule) (dflt v : PyVal)
    (h : validValue r (some v) = true) : fixValue r dflt (some v) = v := by
  have hclamp := clampNumeric_eq_self r v h
  obtain ⟨ty, lo, hi, chs⟩ := r
  simp only [validValue, Bool.and_eq_true, Bool.not_eq_true',
    decide_eq_false_iff_not] at h
  obtain ⟨⟨⟨hne, hinst⟩, hrange⟩, hchoice⟩ := h
  cases chs <;>
    simp_all [fixValue]

/-- For a well-formed rule without choices, the clamp lands inside the rule's
bounds: either the value already was, or it becomes the violated bound. -/
theorem clampNumeric_valid (r : FieldRule) (dflt v : PyVal)
    (hwf : ruleWellFormed r dflt = true)
    (hch : r.choices = none)
    (hinst : pyIsinstance v r.ty = true) :
    validValue r (some (clampNumeric r v)) = true := by
  have hne := pyIsinstance_ne_vNone v r.ty hinst
  obtain ⟨ty, lo, hi, chs⟩ := r
  simp only at hch hinst hne
  subst hch
  simp only [ruleWellFormed, Bool.and_eq_true] at hwf
  obtain ⟨⟨⟨⟨hdflt, hlo⟩, hhi⟩, -⟩, -⟩ := hwf
  cases lo <;> cases hi <;>
    simp only [clampNumeric] at * <;>
    split_ifs <;>
    simp_all [validValue]

/-- Repairing any field of a well-formed rule yields a value satisfying the
rule. -/
theorem fixValue_valid (r : FieldRule) (dflt : PyVal)
    (hwf : ruleWellFormed r dflt = true) :
    ∀ ov : Option PyVal, validValue r (some (fixValue r dflt ov)) = true := by
  intro ov
  have hwf' := hwf
  simp only [ruleWellFormed, Bool.and_eq_true] at hwf'
  obtain ⟨⟨⟨⟨hdflt, hlo⟩, hhi⟩, hchs⟩, hnumch⟩ := hwf'
  cases ov with
  | none => exact hdflt
  | some v =>
      by_cases hv0 : v = PyVal.vNone
      · simp [fixValue, hv0, hdflt]
      · by_cases hinst : pyIsinstance v r.ty = true
        · have hne := pyIsinstance_ne_vNone v r.ty hinst
          cases hch : r.choices with
          | none =>
              have := clampNumeric_valid r dflt v hwf hch hinst
              simp [fixValue, hv0, hinst, hch, this]
          | some cs =>
              have hnum : ¬ (r.ty.isNumeric = true) := by
                rw [hch] at hnumch
                simp only [Option.isNone_some, Bool.or_eq_true,
                  Bool.not_eq_true'] at hnumch
                rcases hnumch with h | h
                · simp [h]
                · cases h
              rw [hch] at hchs
              simp only [Bool.and_eq_true] at hchs
              obtain ⟨-, hhead⟩ := hchs
              by_cases hmem : pyMemChoices v cs = true
              · have hclamp : clampNumeric r v = v := by
                  unfold clampNumeric
                  rw [if_neg hnum]
                obtain ⟨ty, lo, hi, chs⟩ := r
                simp only at hch hinst hne hnum hclamp
                subst hch
                simp_all [fixValue, validValue]
              · simp [fixValue, hv0, hinst, hch, hmem]
                simpa using hhead
        · have hinst' : pyIsinstance v r.ty = false := by
            simpa using hinst
          simp [fixValue, hv0, hinst', hdflt]

/-- Every row of the concrete rule table is well formed (checked by
computation). -/
theorem validationRules_wf_all :
    (validationRules.all fun row => ruleWellFormed row.2.1 row.2.2) = true := by
  with_unfolding_all decide

/-- Every row of the concrete rule table is well formed. -/
theorem validationRules_wf :
    ∀ row ∈ validationRules, ruleWellFormed row.2.1 row.2.2 = true :=
  List.all_eq_true.mp validationRules_wf_all

/-- Looking a table field up by name yields that field's own row. -/
theorem validationRules_find :
    ∀ row ∈ validationRules, findRule row.1 = some row.2 := by
  intro row h
  fin_cases h <;> rfl

/-- Any rule delivered by `findRule` is a table row, hence well formed. -/
theorem findRule_wf (f : String) (r : FieldRule) (dflt : PyVal)
    (h : findRule f = some (r, dflt)) : ruleWellFormed r dflt = true := by
  unfold findRule at h
  cases hfind : validationRules.find? (fun row => row.1 == f) with
  | none => rw [hfind] at h; cases h
  | some row =>
      rw [hfind] at h
      simp only [Option.map_some'] at h
      injection h with h2
      have hmem := List.mem_of_find?_eq_some hfind
      have hw := validationRules_wf row hmem
      rw [h2] at hw
      simpa using hw

/-- C7: `fix_config_issues` is idempotent — a second pass returns the very
same configuration — and its output satisfies every rule of the validation
table (field present and not `None`, of the expected Python type, within the
`min`/`max` bounds, and among the allowed choices). -/
theorem fix_config_issues_idempotent_and_valid (c : PyConfig) :
    fixConfigIssues (fixConfigIssues c) = fixConfigIssues c ∧
    ∀ row ∈ validationRules,
      validValue row.2.1 (fixConfigIssues c row.1) = true := by
  constructor
  · funext f
    show (match findRule f with
          | some (r, dflt) => some (fixValue r dflt ((fixConfigIssues c) f))
          | none => (fixConfigIssues c) f) = fixConfigIssues c f
    cases hr : findRule f with
    | none =>
        show (fixConfigIssues c) f = fixConfigIssues c f
        rfl
    | some rd =>
        obtain ⟨r, dflt⟩ := rd
        have hwf := findRule_wf f r dflt hr
        have hcf : fixConfigIssues c f = some (fixValue r dflt (c f)) := by
          unfold fixConfigIssues
          rw [hr]
        rw [hcf]
        show some (fixValue r dflt (some (fixValue r dflt (c f)))) =
          some (fixValue r dflt (c f))
        rw [fixValue_eq_of_valid r dflt _ (fixValue_valid r dflt hwf (c f))]
  · intro row hmem
    have hfind := validationRules_find row hmem
    have hwf := validationRules_wf row hmem
    unfold fixConfigIssues
    rw [hfind]
    exact fixValue_valid row.2.1 row.2.2 hwf (c row.1)

/-- Witness for `fix_config_issues_idempotent_and_valid`: a config carrying
only an out-of-range `batch_size` is repaired once and for all, and the
repaired `log_level` satisfies its rule. -/
theorem fix_config_issues_idempotent_and_valid_witness :
    (fixConfigIssues (fixConfigIssues
        (fun f => if f = "batch_size" then some (.vInt 100) else none)) =
      fixConfigIssues
        (fun f => if f = "batch_size" then some (.vInt 100) else none)) ∧
    (("log_level",
        (⟨.tStr, none, none, some ["DEBUG", "INFO", "WARNING", "ERROR"]⟩ :
          FieldRule),
        (.vStr "INFO" : PyVal)) ∈ validationRules ∧
      validValue ⟨.tStr, none, none, some ["DEBUG", "INFO", "WARNING", "ERROR"]⟩
        (fixConfigIssues
          (fun f => if f = "batch_size" then some (.vInt 100) else none)
          "log_level") = true) := by
  have hmem : ("log_level",
      (⟨.tStr, none, none, some ["DEBUG", "INFO", "WARNING", "ERROR"]⟩ :
        FieldRule),
      (.vStr "INFO" : PyVal)) ∈ validationRules := by
    simp [validationRules]
  exact ⟨(fix_config_issues_idempotent_and_valid _).1,
    hmem,
    (fix_config_issues_idempotent_and_valid _).2 _ hmem⟩
